import Mathlib

/-!
Shallow embedding of the prism-engine multiplayer networking core
(src/engine/core/networking/Packet.h, Packet.cpp, NetworkManager.h,
NetworkManager.cpp) and proofs about its wire codec, peer table and
connection state machine.

Modelling conventions:
* machine integers are `Nat`; a `uint8_t` parameter is masked with `% 256`
  at the call boundary (the C++ cast), `uint16_t`/`uint32_t` values carry
  `< 2 ^ 16` / `< 2 ^ 32` hypotheses where needed;
* `float` values are modelled by their 32-bit IEEE-754 bit pattern: the
  source encodes a float by bit-reinterpretation into a `uint32_t`
  (`Packet::WriteFloat` / `Packet::ReadFloat` use a `union`), so the codec
  round-trips the bit pattern exactly;
* `std::string` is a `List Nat` of bytes (each `< 256`);
* throwing C++ code is modelled with `Except String`; a read returns its
  result together with the packet state left behind (also on failure,
  because a thrown exception leaves the partially advanced cursor behind);
* the bitwise accumulation `value |= byte << 8*k` in the readers acts on
  disjoint byte ranges, hence equals `byte * 2 ^ (8*k)` addition; shifts
  and masks on unsigned values are division / remainder by powers of two.
-/

namespace Prism

/-! ## PacketType wire codes (enum `PacketType` in Packet.h) -/

namespace PacketType

def HANDSHAKE : Nat := 0
def DISCONNECT : Nat := 1
def PING : Nat := 2
def PONG : Nat := 3
def PEER_ID_ASSIGNMENT : Nat := 4
def PLAYER_MOVE : Nat := 5
def PLAYER_POSITION_UPDATE : Nat := 6
def PLAYER_JOIN : Nat := 7
def PLAYER_LEAVE : Nat := 8
def GAME_STATE_UPDATE : Nat := 9
def ENTITY_SPAWN : Nat := 10
def ENTITY_DESTROY : Nat := 11
def ENTITY_UPDATE : Nat := 12
def CHAT_MESSAGE : Nat := 13
def CUSTOM_GAME_EVENT : Nat := 100

end PacketType

/-- `PacketHeader` (Packet.h): `type` is the `uint8_t` wire code of the
`PacketType`, `timestamp` and `dataSize` are `uint32_t`. -/
structure PacketHeader where
  type : Nat
  timestamp : Nat
  dataSize : Nat
  deriving Repr, DecidableEq

/-- The default constructor `PacketHeader()` : `type = PING`, `timestamp = 0`,
`dataSize = 0`. -/
def PacketHeader.default : PacketHeader :=
  { type := PacketType.PING, timestamp := 0, dataSize := 0 }

/-- `Packet` (Packet.h): a header, a growable payload byte buffer `m_Data`
and a read cursor `m_ReadPos`. -/
structure Packet where
  header : PacketHeader
  data : List Nat
  readPos : Nat
  deriving Repr, DecidableEq

/-- `Packet()` default constructor: default header, empty data,
`m_ReadPos = 0`. -/
def Packet.mkEmpty : Packet :=
  { header := PacketHeader.default, data := [], readPos := 0 }

/-- `Packet(PacketType type)` constructor: header `PacketHeader(t, 0)` whose
timestamp is `enet_time_get()`; the transport clock value is passed in as
`now` (a `uint32_t`). -/
def Packet.mkTyped (t : Nat) (now : Nat) : Packet :=
  { header := { type := t, timestamp := now % 2 ^ 32, dataSize := 0 },
    data := [], readPos := 0 }

/-- `Packet::UpdateHeader()` : `m_Header.dataSize = m_Data.size()`. -/
def Packet.updateHeader (p : Packet) : Packet :=
  { p with header := { p.header with dataSize := p.data.length } }

/-! ## Little-endian encodings produced by the writers -/

/-- The two bytes pushed by `Packet::WriteUint16`:
`value & 0xFF` and `(value >> 8) & 0xFF`. -/
def enc16 (v : Nat) : List Nat :=
  [v % 256, v / 2 ^ 8 % 256]

/-- The four bytes pushed by `Packet::WriteUint32`:
`value & 0xFF`, `(value >> 8) & 0xFF`, `(value >> 16) & 0xFF`,
`(value >> 24) & 0xFF`. -/
def enc32 (v : Nat) : List Nat :=
  [v % 256, v / 2 ^ 8 % 256, v / 2 ^ 16 % 256, v / 2 ^ 24 % 256]

/-! ## Write operations (Packet.cpp lines 6-47) -/

/-- `Packet::WriteUint8` : push one byte, then `UpdateHeader()`. The
argument is a `uint8_t`, so the value is reduced `% 256` at the call
boundary. -/
def Packet.writeUint8 (p : Packet) (v : Nat) : Packet :=
  Packet.updateHeader { p with data := p.data ++ [v % 256] }

/-- `Packet::WriteUint16` : push the two little-endian bytes, then
`UpdateHeader()`. -/
def Packet.writeUint16 (p : Packet) (v : Nat) : Packet :=
  Packet.updateHeader { p with data := p.data ++ enc16 v }

/-- `Packet::WriteUint32` : push the four little-endian bytes, then
`UpdateHeader()`. -/
def Packet.writeUint32 (p : Packet) (v : Nat) : Packet :=
  Packet.updateHeader { p with data := p.data ++ enc32 v }

/-- `Packet::WriteFloat` : bit-reinterprets the float into a `uint32_t` and
calls `WriteUint32`; `bits` is the 32-bit pattern of the float. -/
def Packet.writeFloat (p : Packet) (bits : Nat) : Packet :=
  p.writeUint32 bits

/-- `Packet::WriteString` : `WriteUint16((uint16_t)value.length())`, then
`WriteUint8((uint8_t)c)` for each character in order. -/
def Packet.writeString (p : Packet) (s : List Nat) : Packet :=
  s.foldl (fun q c => q.writeUint8 c) (p.writeUint16 s.length)

/-- A `glm::vec2`, with each component as its IEEE-754 bit pattern. -/
structure Vec2 where
  x : Nat
  y : Nat
  deriving Repr, DecidableEq

/-- A `glm::vec3`, with each component as its IEEE-754 bit pattern. -/
structure Vec3 where
  x : Nat
  y : Nat
  z : Nat
  deriving Repr, DecidableEq

/-- `Packet::WriteVec2` : `WriteFloat(x); WriteFloat(y)`. -/
def Packet.writeVec2 (p : Packet) (v : Vec2) : Packet :=
  (p.writeFloat v.x).writeFloat v.y

/-- `Packet::WriteVec3` : `WriteFloat(x); WriteFloat(y); WriteFloat(z)`. -/
def Packet.writeVec3 (p : Packet) (v : Vec3) : Packet :=
  ((p.writeFloat v.x).writeFloat v.y).writeFloat v.z

/-! ## Read operations (Packet.cpp lines 49-99)

A read returns its `Except` result together with the packet state it
leaves behind; on a throw the state already contains the cursor advance
performed by the successful inner reads. -/

/-- The message of the overflow exception thrown by `Packet::ReadUint8`. -/
def overflowMsg : String := "Packet read overflow: tried to read past end of data"

/-- `Packet::ReadUint8` : throws if `m_ReadPos >= m_Data.size()`, otherwise
returns `m_Data[m_ReadPos++]`. -/
def Packet.readUint8 (p : Packet) : Except String Nat × Packet :=
  if h : p.data.length ≤ p.readPos then
    (Except.error overflowMsg, p)
  else
    (Except.ok (p.data.get ⟨p.readPos, Nat.lt_of_not_le h⟩),
     { p with readPos := p.readPos + 1 })

/-- Sequencing of reads: propagate a thrown exception together with the
packet state at the point of the throw. -/
def rstep {α β : Type} (x : Except String α × Packet)
    (f : α → Packet → Except String β × Packet) : Except String β × Packet :=
  match x with
  | (Except.ok a, p) => f a p
  | (Except.error e, p) => (Except.error e, p)

/-- `Packet::ReadUint16` : two `ReadUint8` calls, accumulated with
`value |= byte << 8*k` (disjoint byte ranges, hence addition). -/
def Packet.readUint16 (p : Packet) : Except String Nat × Packet :=
  rstep p.readUint8 fun b0 p1 =>
  rstep p1.readUint8 fun b1 p2 =>
  (Except.ok (b0 + b1 * 2 ^ 8), p2)

/-- `Packet::ReadUint32` : four `ReadUint8` calls, accumulated with
`value |= byte << 8*k` (disjoint byte ranges, hence addition). -/
def Packet.readUint32 (p : Packet) : Except String Nat × Packet :=
  rstep p.readUint8 fun b0 p1 =>
  rstep p1.readUint8 fun b1 p2 =>
  rstep p2.readUint8 fun b2 p3 =>
  rstep p3.readUint8 fun b3 p4 =>
  (Except.ok (b0 + b1 * 2 ^ 8 + b2 * 2 ^ 16 + b3 * 2 ^ 24), p4)

/-- `Packet::ReadFloat` : `ReadUint32` bit-reinterpreted; the returned `Nat`
is the float's 32-bit pattern. -/
def Packet.readFloat (p : Packet) : Except String Nat × Packet :=
  p.readUint32

/-- The byte-by-byte loop of `Packet::ReadString`: `n` `ReadUint8` calls,
collecting the bytes in order. -/
def Packet.readBytes : Nat → Packet → Except String (List Nat) × Packet
  | 0, p => (Except.ok [], p)
  | n + 1, p =>
    rstep p.readUint8 fun b p1 =>
    rstep (Packet.readBytes n p1) fun bs p2 =>
    (Except.ok (b :: bs), p2)

/-- `Packet::ReadString` : `ReadUint16` length prefix, then that many
`ReadUint8` calls. -/
def Packet.readString (p : Packet) : Except String (List Nat) × Packet :=
  rstep p.readUint16 fun len p1 =>
  Packet.readBytes len p1

/-- `Packet::ReadVec2` : `ReadFloat` twice. -/
def Packet.readVec2 (p : Packet) : Except String Vec2 × Packet :=
  rstep p.readFloat fun x p1 =>
  rstep p1.readFloat fun y p2 =>
  (Except.ok ⟨x, y⟩, p2)

/-- `Packet::ReadVec3` : `ReadFloat` three times. -/
def Packet.readVec3 (p : Packet) : Except String Vec3 × Packet :=
  rstep p.readFloat fun x p1 =>
  rstep p1.readFloat fun y p2 =>
  rstep p2.readFloat fun z p3 =>
  (Except.ok ⟨x, y, z⟩, p3)

/-- `Packet::ResetReadPosition()` : `m_ReadPos = 0`. -/
def Packet.resetReadPosition (p : Packet) : Packet :=
  { p with readPos := 0 }

/-! ## Raw datagram layout (Packet.cpp lines 101-154, Packet.h line 91)

`PacketHeader` is `{ PacketType type; uint32_t timestamp; uint32_t
dataSize; }` with `PacketType : uint8_t`. Under the standard C++ layout
rules used by every mainstream ABI (Itanium and MSVC alike),
`alignof(uint32_t) = 4`, so `timestamp` sits at offset 4, `dataSize` at
offset 8 and `sizeof(PacketHeader) = 12`: one type byte, three padding
bytes, then the two little-endian (on the target platforms) `uint32_t`
fields. -/

/-- `sizeof(PacketHeader)` : 12 bytes (1 + 3 padding + 4 + 4). -/
def headerSize : Nat := 12

/-- The bytes `memcpy` reads out of a `PacketHeader` on a little-endian
host: type byte, three padding bytes (indeterminate in C++, modelled as 0),
then `timestamp` and `dataSize` little-endian. -/
def headerBytes (h : PacketHeader) : List Nat :=
  [h.type % 256] ++ [0, 0, 0] ++ enc32 h.timestamp ++ enc32 h.dataSize

/-- `Packet::GetRawData()` : header bytes followed by the payload bytes in
one contiguous buffer (also the buffer handed to `enet_packet_create` by
`Packet::CreateENetPacket`, whatever the reliability flag). -/
def Packet.rawData (p : Packet) : List Nat :=
  headerBytes p.header ++ p.data

/-- `Packet::GetTotalSize()` : `sizeof(PacketHeader) + m_Data.size()`. -/
def Packet.getTotalSize (p : Packet) : Nat :=
  headerSize + p.data.length

/-- Little-endian `uint32_t` decode of 4 consecutive raw bytes starting at
offset `i` (the effect of the `memcpy` in `Packet::FromENetPacket` on a
little-endian host). -/
def de32 (raw : List Nat) (i : Nat) : Nat :=
  raw.getD i 0 + raw.getD (i + 1) 0 * 2 ^ 8 +
    raw.getD (i + 2) 0 * 2 ^ 16 + raw.getD (i + 3) 0 * 2 ^ 24

/-- `Packet::FromENetPacket` : throws if the datagram is shorter than
`sizeof(PacketHeader)`; otherwise `memcpy`s the header out of the first 12
bytes, copies the remaining bytes into `m_Data`, and sets `m_ReadPos = 0`.
The embedded `dataSize` field is copied as-is, without validation against
the actual number of remaining bytes. -/
def Packet.fromENetPacket (raw : List Nat) : Except String Packet :=
  if raw.length < headerSize then
    Except.error "Invalid ENet packet: too small or null"
  else
    Except.ok
      { header :=
          { type := raw.getD 0 0
            timestamp := de32 raw 4
            dataSize := de32 raw 8 }
        data := raw.drop headerSize
        readPos := 0 }

/-! ## Typed payload variants (PacketData, Packet.cpp lines 164-224) -/

namespace PacketData

/-- `PacketData::PlayerMove` : `uint32_t playerID; glm::vec2 position;
glm::vec2 velocity; float rotation;`. -/
structure PlayerMove where
  playerID : Nat
  position : Vec2
  velocity : Vec2
  rotation : Nat
  deriving Repr, DecidableEq

/-- `PacketData::ChatMessage` : `uint32_t playerID; std::string playerName;
std::string message;`. -/
structure ChatMessage where
  playerID : Nat
  playerName : List Nat
  message : List Nat
  deriving Repr, DecidableEq

/-- `PacketData::EntityUpdate` : `uint32_t entityID; glm::vec3 position,
rotation, scale; bool isVisible;`. -/
structure EntityUpdate where
  entityID : Nat
  position : Vec3
  rotation : Vec3
  scale : Vec3
  isVisible : Bool
  deriving Repr, DecidableEq

/-- `PacketData::PlayerJoin` : `uint32_t playerID; std::string playerName;
glm::vec2 spawnPosition;`. -/
structure PlayerJoin where
  playerID : Nat
  playerName : List Nat
  spawnPosition : Vec2
  deriving Repr, DecidableEq

/-- `PacketData::PeerIDAssignment` : `uint32_t assignedPeerID;`. -/
structure PeerIDAssignment where
  assignedPeerID : Nat
  deriving Repr, DecidableEq

/-- `PlayerMove::WriteTo`. -/
def PlayerMove.writeTo (m : PlayerMove) (p : Packet) : Packet :=
  (((p.writeUint32 m.playerID).writeVec2 m.position).writeVec2
    m.velocity).writeFloat m.rotation

/-- `PlayerMove::ReadFrom`, returning the decoded struct. -/
def PlayerMove.readFrom (p : Packet) : Except String PlayerMove × Packet :=
  rstep p.readUint32 fun pid p1 =>
  rstep p1.readVec2 fun pos p2 =>
  rstep p2.readVec2 fun vel p3 =>
  rstep p3.readFloat fun rot p4 =>
  (Except.ok ⟨pid, pos, vel, rot⟩, p4)

/-- `ChatMessage::WriteTo`. -/
def ChatMessage.writeTo (c : ChatMessage) (p : Packet) : Packet :=
  ((p.writeUint32 c.playerID).writeString c.playerName).writeString c.message

/-- `ChatMessage::ReadFrom`, returning the decoded struct. -/
def ChatMessage.readFrom (p : Packet) : Except String ChatMessage × Packet :=
  rstep p.readUint32 fun pid p1 =>
  rstep p1.readString fun name p2 =>
  rstep p2.readString fun msg p3 =>
  (Except.ok ⟨pid, name, msg⟩, p3)

/-- `EntityUpdate::WriteTo` (the `bool` is written as `isVisible ? 1 : 0`). -/
def EntityUpdate.writeTo (e : EntityUpdate) (p : Packet) : Packet :=
  ((((p.writeUint32 e.entityID).writeVec3 e.position).writeVec3
    e.rotation).writeVec3 e.scale).writeUint8 (if e.isVisible then 1 else 0)

/-- `EntityUpdate::ReadFrom` (the `bool` is decoded as `ReadUint8() != 0`). -/
def EntityUpdate.readFrom (p : Packet) : Except String EntityUpdate × Packet :=
  rstep p.readUint32 fun eid p1 =>
  rstep p1.readVec3 fun pos p2 =>
  rstep p2.readVec3 fun rot p3 =>
  rstep p3.readVec3 fun scl p4 =>
  rstep p4.readUint8 fun vis p5 =>
  (Except.ok ⟨eid, pos, rot, scl, vis ≠ 0⟩, p5)

/-- `PlayerJoin::WriteTo`. -/
def PlayerJoin.writeTo (j : PlayerJoin) (p : Packet) : Packet :=
  ((p.writeUint32 j.playerID).writeString j.playerName).writeVec2
    j.spawnPosition

/-- `PlayerJoin::ReadFrom`, returning the decoded struct. -/
def PlayerJoin.readFrom (p : Packet) : Except String PlayerJoin × Packet :=
  rstep p.readUint32 fun pid p1 =>
  rstep p1.readString fun name p2 =>
  rstep p2.readVec2 fun spawn p3 =>
  (Except.ok ⟨pid, name, spawn⟩, p3)

/-- `PeerIDAssignment::WriteTo`. -/
def PeerIDAssignment.writeTo (a : PeerIDAssignment) (p : Packet) : Packet :=
  p.writeUint32 a.assignedPeerID

/-- `PeerIDAssignment::ReadFrom`, returning the decoded struct. -/
def PeerIDAssignment.readFrom (p : Packet) :
    Except String PeerIDAssignment × Packet :=
  rstep p.readUint32 fun aid p1 =>
  (Except.ok ⟨aid⟩, p1)

end PacketData

/-! ## Packet factory (Packet.cpp lines 228-280) -/

/-- `PacketFactory::CreatePeerIDAssignmentPacket` : a fresh
`PEER_ID_ASSIGNMENT` packet holding the assigned id as a `uint32_t`;
`now` is the transport clock stamped into the header. -/
def createPeerIDAssignmentPacket (assignedPeerID : Nat) (now : Nat) : Packet :=
  (Packet.mkTyped PacketType.PEER_ID_ASSIGNMENT now).writeUint32 assignedPeerID

/-! ## NetworkManager state model (NetworkManager.h / NetworkManager.cpp)

`ENetPeer*` handles are abstract `Nat` tokens; `m_Host` is modelled by a
`Bool` ("a host is bound"); the connected-state of the client's
`m_ServerPeer` (an ENet-side field) is mirrored by a `Bool`. Only what the
modelled operations read or write is represented. -/

/-- `NetworkEventType` (NetworkManager.h). -/
inductive NetworkEventType where
  | CLIENT_CONNECTED
  | CLIENT_DISCONNECTED
  | SERVER_CONNECTED
  | SERVER_DISCONNECTED
  | PACKET_RECEIVED
  | CONNECTION_FAILED
  | SERVER_STARTED
  | SERVER_STOPPED
  deriving Repr, DecidableEq

/-- `NetworkEvent` (NetworkManager.h); the optional packet payload is not
needed by the modelled paths. -/
structure NetworkEvent where
  type : NetworkEventType
  peerID : Nat
  message : String
  deriving Repr, DecidableEq

/-- `PeerInfo` (NetworkManager.h). `enetPeer` is `none` for a null
pointer. The fields not set by `AddPeer` keep their default-constructor
values. -/
structure PeerInfo where
  id : Nat
  enetPeer : Option Nat
  address : String
  port : Nat
  lastPingTime : Nat
  roundTripTime : Nat
  isConnected : Bool
  deriving Repr, DecidableEq

/-- The `NetworkManager` state touched by the modelled operations. -/
structure NMState where
  initialized : Bool
  isServer : Bool
  isClient : Bool
  host : Bool
  serverPeer : Option Nat
  serverPeerConnState : Bool
  connectedPeers : List PeerInfo
  nextPeerID : Nat
  localPeerID : Nat
  eventQueue : List NetworkEvent
  lastError : String
  pendingConnection : Bool
  connAddress : String
  connPort : Nat
  connTimeoutMs : Nat
  bytesSent : Nat
  packetsSent : Nat
  deriving Repr, DecidableEq

/-- The `NetworkManager()` constructor state: in particular
`m_NextPeerID(1)`, no host, no role, no pending connection, empty peer
table. (`m_LocalPeerID` is left uninitialized by the constructor; it is
modelled as 0 and never read before being assigned on the paths proved
about.) -/
def NMState.init : NMState :=
  { initialized := false, isServer := false, isClient := false
    host := false, serverPeer := none, serverPeerConnState := false
    connectedPeers := [], nextPeerID := 1, localPeerID := 0
    eventQueue := [], lastError := "", pendingConnection := false
    connAddress := "", connPort := 0, connTimeoutMs := 0
    bytesSent := 0, packetsSent := 0 }

/-- `NetworkManager::SetError` : store the message in `s_LastError`. -/
def NMState.setError (s : NMState) (msg : String) : NMState :=
  { s with lastError := msg }

/-- `NetworkManager::QueueEvent` : push onto the event queue. -/
def NMState.queueEvent (s : NMState) (e : NetworkEvent) : NMState :=
  { s with eventQueue := s.eventQueue ++ [e] }

/-- `NetworkManager::GetPeerInfo(peerID)` : linear search for the first
peer whose `id` matches. -/
def findPeerByID (peers : List PeerInfo) (peerID : Nat) : Option PeerInfo :=
  peers.find? fun peer => peer.id == peerID

/-- `NetworkManager::ConnectToServer` (NetworkManager.cpp lines 170-200):
asynchronous; validates state, records the request, raises
`m_PendingConnection` and returns `true` immediately. No transport work
happens on this path. -/
def connectToServer (s : NMState) (address : String) (port timeoutMs : Nat) :
    Bool × NMState :=
  if s.initialized = false then
    (false, s.setError "NetworkManager not initialized")
  else if s.isServer || s.isClient then
    (false, s.setError "Already running as server or client")
  else if s.pendingConnection then
    (false, s.setError "Connection already in progress")
  else
    (true, { s with connAddress := address, connPort := port,
                    connTimeoutMs := timeoutMs, pendingConnection := true })

/-- Outcome of the environment (ENet) calls inside
`ConnectToServerBlocking`: host creation, address resolution, peer
allocation, and the connect wait. -/
inductive ConnectOutcome where
  | hostFail
  | addressFail
  | peerFail
  | timeout
  | accepted
  deriving Repr, DecidableEq

/-- `NetworkManager::ConnectToServerBlocking` (NetworkManager.cpp lines
202-265), run on the network thread. `outcome` stands for the behaviour of
the ENet calls, `serverHandle` for the `ENetPeer*` returned by
`enet_host_connect`. On success the server is stored as peer id 0 and *no*
event is queued (the `SERVER_CONNECTED` event is deferred to the
`PEER_ID_ASSIGNMENT` handler); on timeout a `CONNECTION_FAILED` event is
queued. -/
def connectToServerBlocking (s : NMState) (address : String)
    (port _timeoutMs : Nat) (outcome : ConnectOutcome) (serverHandle : Nat) :
    Bool × NMState :=
  match outcome with
  | ConnectOutcome.hostFail =>
    (false, s.setError "Failed to create client host")
  | ConnectOutcome.addressFail =>
    (false, s.setError ("Invalid server address: " ++ address))
  | ConnectOutcome.peerFail =>
    (false, s.setError "Failed to create connection to server")
  | ConnectOutcome.timeout =>
    (false,
      (({ s with host := false, serverPeer := none
        }).setError "Connection to server timed out").queueEvent
        ⟨NetworkEventType.CONNECTION_FAILED, 0, "Connection timed out"⟩)
  | ConnectOutcome.accepted =>
    (true,
      { s with host := true, serverPeer := some serverHandle,
               serverPeerConnState := true, isClient := true,
               connectedPeers := s.connectedPeers ++
                 [{ id := 0, enetPeer := some serverHandle,
                    address := address, port := port, lastPingTime := 0,
                    roundTripTime := 0, isConnected := true }],
               localPeerID := 0 })

/-- `NetworkManager::SendPacket` (NetworkManager.cpp lines 313-350).
`transportSendOk` stands for `enet_peer_send(...) == 0`; packet creation
(`enet_packet_create`) is assumed to succeed. The third component is the
handle the packet was successfully sent to (`none` when the send failed).
The client branch ignores `peerID` and targets `m_ServerPeer`; the server
branch targets the first table entry whose `id` equals `peerID`. -/
def sendPacket (s : NMState) (packet : Packet) (peerID : Nat)
    (transportSendOk : Bool) : Bool × NMState × Option Nat :=
  if s.host = false then
    (false, s.setError "No active host", none)
  else
    let target : Option Nat :=
      if s.isClient then
        match s.serverPeer with
        | some h => if s.serverPeerConnState then some h else none
        | none => none
      else if s.isServer then
        match findPeerByID s.connectedPeers peerID with
        | some peer =>
          match peer.enetPeer with
          | some h => if peer.isConnected then some h else none
          | none => none
        | none => none
      else none
    match target with
    | some h =>
      if transportSendOk then
        (true,
          { s with bytesSent := s.bytesSent + packet.getTotalSize,
                   packetsSent := s.packetsSent + 1 }, some h)
      else (false, s.setError "Failed to send packet", none)
    | none => (false, s.setError "Failed to send packet", none)

/-- The built-in `PEER_ID_ASSIGNMENT` handler installed by
`NetworkManager::RegisterBuiltinHandlers` (NetworkManager.cpp lines
670-690). On a client it reads the assigned id from (a copy of) the
packet, stores it in `m_LocalPeerID`, and queues `SERVER_CONNECTED`
carrying the assigned id; otherwise it only logs a warning. The second
component lists the packets the handler sends back — it sends none. A
throw from `ReadUint32` propagates (it is caught by the caller in
`HandleENetEvent`). -/
def handlePeerIDAssignment (s : NMState) (packet : Packet) :
    Except String (NMState × List Packet) :=
  if s.isClient then
    match packet.readUint32 with
    | (Except.ok assignedID, _) =>
      Except.ok
        (({ s with localPeerID := assignedID }).queueEvent
          ⟨NetworkEventType.SERVER_CONNECTED, assignedID,
            "Connected with assigned peer ID " ++ toString assignedID⟩, [])
    | (Except.error e, _) => Except.error e
  else
    Except.ok (s, [])

/-- `NetworkManager::AddPeer` (NetworkManager.cpp lines 498-533): the new
peer gets `id = m_NextPeerID++`, is marked connected and appended to the
table; a `PEER_ID_ASSIGNMENT(reliable)` packet is sent to the new peer's
handle and a `CLIENT_CONNECTED` event is queued. The second component
lists the (handle, packet) sends performed. -/
def addPeer (s : NMState) (handle : Nat) (address : String) (port now : Nat) :
    NMState × List (Nat × Packet) :=
  let peer : PeerInfo :=
    { id := s.nextPeerID, enetPeer := some handle, address := address,
      port := port, lastPingTime := 0, roundTripTime := 0,
      isConnected := true }
  (({ s with connectedPeers := s.connectedPeers ++ [peer],
             nextPeerID := s.nextPeerID + 1 }).queueEvent
      ⟨NetworkEventType.CLIENT_CONNECTED, peer.id,
        "Client " ++ toString peer.id ++ " connected"⟩,
    [(handle, createPeerIDAssignmentPacket peer.id now)])

/-- `NetworkManager::RemovePeer` (NetworkManager.cpp lines 535-544):
erase the first table entry whose `enetPeer` matches; `m_NextPeerID` is
not touched. -/
def removePeer (s : NMState) (handle : Nat) : NMState :=
  { s with connectedPeers :=
      s.connectedPeers.eraseP fun peer => peer.enetPeer == some handle }

/-- A server-side peer-table operation: a transport connect
(`AddPeer`, with its call context) or a transport disconnect
(`RemovePeer`). -/
inductive PeerOp where
  | add (handle : Nat) (address : String) (port now : Nat)
  | remove (handle : Nat)
  deriving Repr, DecidableEq

/-- Run a sequence of peer-table operations, collecting the peer id
assigned by each `AddPeer` call in order. -/
def runPeerOps (s : NMState) : List PeerOp → NMState × List Nat
  | [] => (s, [])
  | PeerOp.add h a pt now :: ops =>
    let r := runPeerOps (addPeer s h a pt now).1 ops
    (r.1, s.nextPeerID :: r.2)
  | PeerOp.remove h :: ops => runPeerOps (removePeer s h) ops

/-- The number of `add` operations in a sequence. -/
def countAdds (ops : List PeerOp) : Nat :=
  ops.countP fun op =>
    match op with
    | PeerOp.add _ _ _ _ => true
    | PeerOp.remove _ => false

/-! ## Basic packet lemmas -/

@[simp]
theorem Packet.data_withReadPos (p : Packet) (n : Nat) :
    ({ p with readPos := n } : Packet).data = p.data := rfl

@[simp]
theorem Packet.readPos_withReadPos (p : Packet) (n : Nat) :
    ({ p with readPos := n } : Packet).readPos = n := rfl

@[simp]
theorem Packet.header_withReadPos (p : Packet) (n : Nat) :
    ({ p with readPos := n } : Packet).header = p.header := rfl

@[simp]
theorem Packet.writeUint8_data (p : Packet) (v : Nat) :
    (p.writeUint8 v).data = p.data ++ [v % 256] := rfl

@[simp]
theorem Packet.writeUint16_data (p : Packet) (v : Nat) :
    (p.writeUint16 v).data = p.data ++ enc16 v := rfl

@[simp]
theorem Packet.writeUint32_data (p : Packet) (v : Nat) :
    (p.writeUint32 v).data = p.data ++ enc32 v := rfl

@[simp]
theorem Packet.writeFloat_data (p : Packet) (v : Nat) :
    (p.writeFloat v).data = p.data ++ enc32 v := rfl

@[simp]
theorem Packet.writeUint8_readPos (p : Packet) (v : Nat) :
    (p.writeUint8 v).readPos = p.readPos := rfl

@[simp]
theorem Packet.writeUint16_readPos (p : Packet) (v : Nat) :
    (p.writeUint16 v).readPos = p.readPos := rfl

@[simp]
theorem Packet.writeUint32_readPos (p : Packet) (v : Nat) :
    (p.writeUint32 v).readPos = p.readPos := rfl

@[simp]
theorem Packet.writeFloat_readPos (p : Packet) (v : Nat) :
    (p.writeFloat v).readPos = p.readPos := rfl

@[simp]
theorem Packet.writeVec2_data (p : Packet) (v : Vec2) :
    (p.writeVec2 v).data = p.data ++ (enc32 v.x ++ enc32 v.y) := by
  simp [Packet.writeVec2]

@[simp]
theorem Packet.writeVec3_data (p : Packet) (v : Vec3) :
    (p.writeVec3 v).data = p.data ++ (enc32 v.x ++ enc32 v.y ++ enc32 v.z) := by
  simp [Packet.writeVec3]

@[simp]
theorem Packet.writeVec2_readPos (p : Packet) (v : Vec2) :
    (p.writeVec2 v).readPos = p.readPos := rfl

@[simp]
theorem Packet.writeVec3_readPos (p : Packet) (v : Vec3) :
    (p.writeVec3 v).readPos = p.readPos := rfl

theorem Packet.foldl_writeUint8_data (s : List Nat) :
    ∀ p : Packet, (s.foldl (fun q c => q.writeUint8 c) p).data =
      p.data ++ s.map (fun c => c % 256) := by
  induction s with
  | nil => intro p; simp
  | cons c s ih => intro p; simp [ih, List.append_assoc]

theorem Packet.foldl_writeUint8_readPos (s : List Nat) :
    ∀ p : Packet, (s.foldl (fun q c => q.writeUint8 c) p).readPos =
      p.readPos := by
  induction s with
  | nil => intro p; simp
  | cons c s ih => intro p; simp [ih]

/-- The string encoding laid down by `WriteString`: a `uint16` length
prefix (the length reduced mod `2 ^ 16`) followed by the bytes, each
reduced mod 256 by the `char → uint8_t` cast. -/
def encString (s : List Nat) : List Nat :=
  enc16 s.length ++ s.map (fun c => c % 256)

@[simp]
theorem Packet.writeString_data (p : Packet) (s : List Nat) :
    (p.writeString s).data = p.data ++ encString s := by
  simp [Packet.writeString, Packet.foldl_writeUint8_data, encString,
    List.append_assoc]

@[simp]
theorem Packet.writeString_readPos (p : Packet) (s : List Nat) :
    (p.writeString s).readPos = p.readPos := by
  simp [Packet.writeString, Packet.foldl_writeUint8_readPos]

/-! ## Read frame lemmas: a read consumes exactly its encoding -/

theorem Packet.readUint8_frame (p : Packet) (b : Nat) (rest : List Nat)
    (h : p.data.drop p.readPos = b :: rest) :
    p.readUint8 = (Except.ok b, { p with readPos := p.readPos + 1 }) := by
  have hlt : p.readPos < p.data.length := by
    by_contra hle
    rw [List.drop_eq_nil_of_le (by omega)] at h
    exact List.noConfusion h
  have hb : p.data[p.readPos] = b := by
    rw [List.drop_eq_getElem_cons hlt] at h
    exact (List.cons.injEq _ _ _ _ ▸ h).1
  unfold Packet.readUint8
  rw [dif_neg (by omega)]
  simp [hb]

theorem Packet.drop_after (p : Packet) (n : Nat) (s rest : List Nat)
    (h : p.data.drop p.readPos = s ++ rest) (hn : s.length = n) :
    p.data.drop (p.readPos + n) = rest := by
  subst hn
  rw [← List.drop_drop, h, List.drop_left]

theorem Packet.readUint16_frame (p : Packet) (v : Nat) (rest : List Nat)
    (h : p.data.drop p.readPos = enc16 v ++ rest) :
    p.readUint16 =
      (Except.ok (v % 2 ^ 16), { p with readPos := p.readPos + 2 }) := by
  have h0 : p.data.drop p.readPos = v % 256 :: (v / 2 ^ 8 % 256 :: rest) := by
    simpa [enc16] using h
  have h1 : p.data.drop (p.readPos + 1) = v / 2 ^ 8 % 256 :: rest :=
    Packet.drop_after p 1 [v % 256] _ h0 rfl
  unfold Packet.readUint16
  rw [Packet.readUint8_frame p _ _ h0]
  simp only [rstep]
  rw [Packet.readUint8_frame { p with readPos := p.readPos + 1 } _ _
    (by simpa using h1)]
  simp only [rstep]
  simp only [Prod.mk.injEq, Except.ok.injEq, Packet.mk.injEq, true_and,
    and_true]
  omega

theorem Packet.readUint32_frame (p : Packet) (v : Nat) (rest : List Nat)
    (h : p.data.drop p.readPos = enc32 v ++ rest) :
    p.readUint32 =
      (Except.ok (v % 2 ^ 32), { p with readPos := p.readPos + 4 }) := by
  have h0 : p.data.drop p.readPos =
      v % 256 :: (v / 2 ^ 8 % 256 :: (v / 2 ^ 16 % 256 ::
        (v / 2 ^ 24 % 256 :: rest))) := by
    simpa [enc32] using h
  have h1 : p.data.drop (p.readPos + 1) =
      v / 2 ^ 8 % 256 :: (v / 2 ^ 16 % 256 :: (v / 2 ^ 24 % 256 :: rest)) :=
    Packet.drop_after p 1 [v % 256] _ h0 rfl
  have h2 : p.data.drop (p.readPos + 2) =
      v / 2 ^ 16 % 256 :: (v / 2 ^ 24 % 256 :: rest) :=
    Packet.drop_after p 2 [v % 256, v / 2 ^ 8 % 256] _ h0 rfl
  have h3 : p.data.drop (p.readPos + 3) = v / 2 ^ 24 % 256 :: rest :=
    Packet.drop_after p 3 [v % 256, v / 2 ^ 8 % 256, v / 2 ^ 16 % 256] _
      h0 rfl
  unfold Packet.readUint32
  rw [Packet.readUint8_frame p _ _ h0]
  simp only [rstep]
  rw [Packet.readUint8_frame { p with readPos := p.readPos + 1 } _ _
    (by simpa using h1)]
  simp only [rstep]
  rw [Packet.readUint8_frame { p with readPos := p.readPos + 2 } _ _
    (by simpa using h2)]
  simp only [rstep]
  rw [Packet.readUint8_frame { p with readPos := p.readPos + 3 } _ _
    (by simpa using h3)]
  simp only [rstep]
  simp only [Prod.mk.injEq, Except.ok.injEq, Packet.mk.injEq, true_and,
    and_true]
  omega

theorem Packet.readFloat_frame (p : Packet) (v : Nat) (rest : List Nat)
    (h : p.data.drop p.readPos = enc32 v ++ rest) :
    p.readFloat =
      (Except.ok (v % 2 ^ 32), { p with readPos := p.readPos + 4 }) :=
  Packet.readUint32_frame p v rest h

/-! ## Overflow behaviour -/

theorem Packet.readUint8_err (p : Packet) (h : p.data.length ≤ p.readPos) :
    p.readUint8 = (Except.error overflowMsg, p) := by
  unfold Packet.readUint8
  rw [dif_pos h]

theorem Packet.readUint8_ok_state (p : Packet)
    (h : p.readPos < p.data.length) :
    ∃ b, p.readUint8 = (Except.ok b, { p with readPos := p.readPos + 1 }) := by
  unfold Packet.readUint8
  rw [dif_neg (by omega)]
  exact ⟨_, rfl⟩

/-! ## readBytes / readString frame lemmas -/

theorem Packet.readBytes_of_le (n : Nat) :
    ∀ p : Packet, p.readPos + n ≤ p.data.length →
      Packet.readBytes n p =
        (Except.ok ((p.data.drop p.readPos).take n),
          { p with readPos := p.readPos + n }) := by
  induction n with
  | zero =>
    intro p _
    simp [Packet.readBytes]
  | succ n ih =>
    intro p h
    have hlt : p.readPos < p.data.length := by omega
    have hd := List.drop_eq_getElem_cons hlt
    rw [Packet.readBytes]
    rw [Packet.readUint8_frame p _ _ hd]
    simp only [rstep]
    rw [ih { p with readPos := p.readPos + 1 } (by simp; omega)]
    simp only [rstep]
    rw [hd]
    simp only [List.take_succ_cons, Packet.data_withReadPos,
      Packet.readPos_withReadPos, Prod.mk.injEq, Except.ok.injEq,
      Packet.mk.injEq, true_and]
    omega

theorem Packet.readBytes_frame (p : Packet) (s rest : List Nat)
    (h : p.data.drop p.readPos = s ++ rest) :
    Packet.readBytes s.length p =
      (Except.ok s, { p with readPos := p.readPos + s.length }) := by
  rcases s with _ | ⟨b, s⟩
  · simp [Packet.readBytes]
  · have hlen : p.readPos + (b :: s).length ≤ p.data.length := by
      have hne : p.data.drop p.readPos ≠ [] := by
        rw [h]; exact List.cons_ne_nil _ _
      have hlt : p.readPos < p.data.length := by
        by_contra hge
        exact hne (List.drop_eq_nil_of_le (by omega))
      have hl := congrArg List.length h
      simp only [List.length_drop, List.length_append,
        List.length_cons] at hl
      simp only [List.length_cons]
      omega
    rw [Packet.readBytes_of_le _ p hlen, h, List.take_left]

theorem Packet.readString_frame (p : Packet) (s rest : List Nat)
    (h : p.data.drop p.readPos = encString s ++ rest)
    (hlen : s.length < 2 ^ 16) (hbytes : ∀ b ∈ s, b < 256) :
    p.readString =
      (Except.ok s, { p with readPos := p.readPos + (2 + s.length) }) := by
  have hmap : s.map (fun c => c % 256) = s := by
    conv_rhs => rw [← List.map_id s]
    exact List.map_congr_left fun b hb => Nat.mod_eq_of_lt (hbytes b hb)
  have h1 : p.data.drop p.readPos = enc16 s.length ++ (s ++ rest) := by
    rw [h, encString, hmap, List.append_assoc]
  unfold Packet.readString
  rw [Packet.readUint16_frame p _ _ h1]
  simp only [rstep]
  have h2 : ({ p with readPos := p.readPos + 2 } : Packet).data.drop
      (p.readPos + 2) = s ++ rest := by
    simpa using Packet.drop_after p 2 (enc16 s.length) _ h1 rfl
  rw [Nat.mod_eq_of_lt hlen]
  rw [Packet.readBytes_frame { p with readPos := p.readPos + 2 } s rest
    (by simpa using h2)]
  simp only [Packet.readPos_withReadPos, Prod.mk.injEq, Except.ok.injEq,
    Packet.mk.injEq, true_and]
  omega

theorem Packet.readVec2_frame (p : Packet) (v : Vec2) (rest : List Nat)
    (h : p.data.drop p.readPos = enc32 v.x ++ (enc32 v.y ++ rest))
    (hx : v.x < 2 ^ 32) (hy : v.y < 2 ^ 32) :
    p.readVec2 = (Except.ok v, { p with readPos := p.readPos + 8 }) := by
  obtain ⟨x, y⟩ := v
  dsimp only at h hx hy
  unfold Packet.readVec2
  rw [Packet.readFloat_frame p _ _ h]
  simp only [rstep]
  have h2 : ({ p with readPos := p.readPos + 4 } : Packet).data.drop
      (p.readPos + 4) = enc32 y ++ rest := by
    simpa using Packet.drop_after p 4 (enc32 x) _ h rfl
  rw [Packet.readFloat_frame { p with readPos := p.readPos + 4 } _ _
    (by simpa using h2)]
  simp only [rstep, Prod.mk.injEq, Except.ok.injEq, Packet.mk.injEq,
    true_and, and_true, Vec2.mk.injEq]
  exact ⟨Nat.mod_eq_of_lt hx, Nat.mod_eq_of_lt hy⟩

theorem Packet.readVec3_frame (p : Packet) (v : Vec3) (rest : List Nat)
    (h : p.data.drop p.readPos =
      enc32 v.x ++ (enc32 v.y ++ (enc32 v.z ++ rest)))
    (hx : v.x < 2 ^ 32) (hy : v.y < 2 ^ 32) (hz : v.z < 2 ^ 32) :
    p.readVec3 = (Except.ok v, { p with readPos := p.readPos + 12 }) := by
  obtain ⟨x, y, z⟩ := v
  dsimp only at h hx hy hz
  unfold Packet.readVec3
  rw [Packet.readFloat_frame p _ _ h]
  simp only [rstep]
  have h2 : ({ p with readPos := p.readPos + 4 } : Packet).data.drop
      (p.readPos + 4) = enc32 y ++ (enc32 z ++ rest) := by
    simpa using Packet.drop_after p 4 (enc32 x) _ h rfl
  rw [Packet.readFloat_frame { p with readPos := p.readPos + 4 } _ _
    (by simpa using h2)]
  simp only [rstep]
  have h3 : ({ p with readPos := p.readPos + 8 } : Packet).data.drop
      (p.readPos + 8) = enc32 z ++ rest := by
    have := Packet.drop_after p 8 (enc32 x ++ enc32 y) (enc32 z ++ rest)
      (by rw [h]; simp [List.append_assoc]) (by simp [enc32])
    simpa using this
  rw [Packet.readFloat_frame { p with readPos := p.readPos + 4 + 4 } _ _
    (by simpa using h3)]
  simp only [rstep, Prod.mk.injEq, Except.ok.injEq, Packet.mk.injEq,
    true_and, and_true, Vec3.mk.injEq]
  exact ⟨Nat.mod_eq_of_lt hx, Nat.mod_eq_of_lt hy, Nat.mod_eq_of_lt hz⟩

/-! ## Well-formedness: the value ranges guaranteed by the C++ types -/

/-- Both components are 32-bit patterns (always true of a `glm::vec2`). -/
def Vec2.WF (v : Vec2) : Prop := v.x < 2 ^ 32 ∧ v.y < 2 ^ 32

/-- All components are 32-bit patterns (always true of a `glm::vec3`). -/
def Vec3.WF (v : Vec3) : Prop := v.x < 2 ^ 32 ∧ v.y < 2 ^ 32 ∧ v.z < 2 ^ 32

/-- A `std::string` whose length fits the `uint16` length prefix and whose
characters are bytes (the latter is always true of a `std::string`). -/
def StrWF (s : List Nat) : Prop :=
  s.length < 2 ^ 16 ∧ ∀ b ∈ s, b < 256

instance (s : List Nat) : Decidable (StrWF s) := by
  unfold StrWF; infer_instance

instance (v : Vec2) : Decidable v.WF := by
  unfold Vec2.WF; infer_instance

instance (v : Vec3) : Decidable v.WF := by
  unfold Vec3.WF; infer_instance

/-- The field ranges guaranteed by `PlayerMove`'s C++ field types. -/
def PacketData.PlayerMove.WF (m : PacketData.PlayerMove) : Prop :=
  m.playerID < 2 ^ 32 ∧ m.position.WF ∧ m.velocity.WF ∧ m.rotation < 2 ^ 32

instance (m : PacketData.PlayerMove) : Decidable m.WF := by
  unfold PacketData.PlayerMove.WF; infer_instance

/-- The field ranges guaranteed by `ChatMessage`'s C++ field types, plus
strings short enough for the `uint16` length prefix. -/
def PacketData.ChatMessage.WF (c : PacketData.ChatMessage) : Prop :=
  c.playerID < 2 ^ 32 ∧ StrWF c.playerName ∧ StrWF c.message

instance (c : PacketData.ChatMessage) : Decidable c.WF := by
  unfold PacketData.ChatMessage.WF; infer_instance

/-- The field ranges guaranteed by `EntityUpdate`'s C++ field types. -/
def PacketData.EntityUpdate.WF (e : PacketData.EntityUpdate) : Prop :=
  e.entityID < 2 ^ 32 ∧ e.position.WF ∧ e.rotation.WF ∧ e.scale.WF

instance (e : PacketData.EntityUpdate) : Decidable e.WF := by
  unfold PacketData.EntityUpdate.WF; infer_instance

/-- The field ranges guaranteed by `PlayerJoin`'s C++ field types, plus a
string short enough for the `uint16` length prefix. -/
def PacketData.PlayerJoin.WF (j : PacketData.PlayerJoin) : Prop :=
  j.playerID < 2 ^ 32 ∧ StrWF j.playerName ∧ j.spawnPosition.WF

instance (j : PacketData.PlayerJoin) : Decidable j.WF := by
  unfold PacketData.PlayerJoin.WF; infer_instance

/-- The field range guaranteed by `PeerIDAssignment`'s C++ field type. -/
def PacketData.PeerIDAssignment.WF (a : PacketData.PeerIDAssignment) : Prop :=
  a.assignedPeerID < 2 ^ 32

instance (a : PacketData.PeerIDAssignment) : Decidable a.WF := by
  unfold PacketData.PeerIDAssignment.WF; infer_instance

/-! ## Per-variant round trips -/

theorem PacketData.PlayerMove.roundTrip_move (p0 : Packet) (h0 : p0.data = [])
    (m : PacketData.PlayerMove) (hWF : m.WF) :
    (PacketData.PlayerMove.readFrom
      ((m.writeTo p0).resetReadPosition)).1 = Except.ok m := by
  obtain ⟨hpid, ⟨hpx, hpy⟩, ⟨hvx, hvy⟩, hrot⟩ := hWF
  have hrp : ((m.writeTo p0).resetReadPosition).readPos = 0 := rfl
  have s0 : ((m.writeTo p0).resetReadPosition).data.drop
      ((m.writeTo p0).resetReadPosition).readPos =
      enc32 m.playerID ++ (enc32 m.position.x ++ (enc32 m.position.y ++
        (enc32 m.velocity.x ++ (enc32 m.velocity.y ++
          (enc32 m.rotation ++ []))))) := by
    simp [PacketData.PlayerMove.writeTo, Packet.resetReadPosition, h0,
      List.append_assoc]
  have s1 := Packet.drop_after _ 4 _ _ s0 rfl
  have s2 := Packet.drop_after _ 12 (enc32 m.playerID ++
    (enc32 m.position.x ++ enc32 m.position.y))
    (enc32 m.velocity.x ++ (enc32 m.velocity.y ++ (enc32 m.rotation ++ [])))
    (by rw [s0]; simp [List.append_assoc]) (by simp [enc32])
  have s3 := Packet.drop_after _ 20 (enc32 m.playerID ++
    (enc32 m.position.x ++ (enc32 m.position.y ++
      (enc32 m.velocity.x ++ enc32 m.velocity.y))))
    (enc32 m.rotation ++ [])
    (by rw [s0]; simp [List.append_assoc]) (by simp [enc32])
  unfold PacketData.PlayerMove.readFrom
  rw [Packet.readUint32_frame _ _ _ s0]
  simp only [rstep]
  rw [Packet.readVec2_frame _ m.position _ (by simpa [hrp] using s1)
    hpx hpy]
  simp only [rstep]
  rw [Packet.readVec2_frame _ m.velocity _ (by simpa [hrp] using s2)
    hvx hvy]
  simp only [rstep]
  rw [Packet.readFloat_frame _ m.rotation _ (by simpa [hrp] using s3)]
  simp only [rstep]
  rw [Nat.mod_eq_of_lt hpid, Nat.mod_eq_of_lt hrot]

/-- Splitting a concatenation at a known offset. -/
theorem drop_chunk {A : Type} (l s rest : List A) (n : Nat)
    (hl : l = s ++ rest) (hn : n = s.length) : l.drop n = rest := by
  subst hl
  rw [hn]
  exact List.drop_left s rest

theorem PacketData.ChatMessage.readFrom_chunks_chat (hdr : PacketHeader)
    (dat : List Nat) (c : PacketData.ChatMessage) (hWF : c.WF)
    (hdat : dat = enc32 c.playerID ++
      (encString c.playerName ++ (encString c.message ++ []))) :
    (PacketData.ChatMessage.readFrom ⟨hdr, dat, 0⟩).1 = Except.ok c := by
  obtain ⟨hpid, ⟨hnlen, hnbytes⟩, ⟨hmlen, hmbytes⟩⟩ := hWF
  have d0 : (⟨hdr, dat, 0⟩ : Packet).data.drop
      (⟨hdr, dat, 0⟩ : Packet).readPos =
      enc32 c.playerID ++
        (encString c.playerName ++ (encString c.message ++ [])) := by
    simpa using hdat
  have d1 : dat.drop 4 =
      encString c.playerName ++ (encString c.message ++ []) :=
    drop_chunk dat (enc32 c.playerID) _ 4 hdat (by simp [enc32])
  have d2 : dat.drop (4 + (2 + c.playerName.length)) =
      encString c.message ++ [] :=
    drop_chunk dat (enc32 c.playerID ++ encString c.playerName) _ _
      (by rw [hdat, List.append_assoc])
      (by simp only [enc32, encString, enc16, List.length_append,
            List.length_cons, List.length_nil, List.length_map])
  unfold PacketData.ChatMessage.readFrom
  rw [Packet.readUint32_frame _ _ _ d0]
  simp only [rstep]
  rw [Packet.readString_frame _ c.playerName _ (by simpa using d1)
    hnlen hnbytes]
  simp only [rstep]
  rw [Packet.readString_frame _ c.message [] (by simpa using d2)
    hmlen hmbytes]
  simp only [rstep]
  rw [Nat.mod_eq_of_lt hpid]

theorem PacketData.ChatMessage.roundTrip_chat (p0 : Packet) (h0 : p0.data = [])
    (c : PacketData.ChatMessage) (hWF : c.WF) :
    (PacketData.ChatMessage.readFrom
      ((c.writeTo p0).resetReadPosition)).1 = Except.ok c :=
  PacketData.ChatMessage.readFrom_chunks_chat (c.writeTo p0).header
    (c.writeTo p0).data c hWF
    (by simp [PacketData.ChatMessage.writeTo, h0, List.append_assoc])

theorem PacketData.EntityUpdate.readFrom_chunks_entity (hdr : PacketHeader)
    (dat : List Nat) (e : PacketData.EntityUpdate) (hWF : e.WF)
    (hdat : dat = enc32 e.entityID ++ (enc32 e.position.x ++
      (enc32 e.position.y ++ (enc32 e.position.z ++ (enc32 e.rotation.x ++
      (enc32 e.rotation.y ++ (enc32 e.rotation.z ++ (enc32 e.scale.x ++
      (enc32 e.scale.y ++ (enc32 e.scale.z ++
      ([(if e.isVisible then 1 else 0) % 256] ++ []))))))))))) :
    (PacketData.EntityUpdate.readFrom ⟨hdr, dat, 0⟩).1 = Except.ok e := by
  obtain ⟨heid, ⟨hpx, hpy, hpz⟩, ⟨hrx, hry, hrz⟩, ⟨hsx, hsy, hsz⟩⟩ := hWF
  have d0 : (⟨hdr, dat, 0⟩ : Packet).data.drop
      (⟨hdr, dat, 0⟩ : Packet).readPos = enc32 e.entityID ++
      (enc32 e.position.x ++ (enc32 e.position.y ++ (enc32 e.position.z ++
      (enc32 e.rotation.x ++ (enc32 e.rotation.y ++ (enc32 e.rotation.z ++
      (enc32 e.scale.x ++ (enc32 e.scale.y ++ (enc32 e.scale.z ++
      ([(if e.isVisible then 1 else 0) % 256] ++ [])))))))))) := by
    simpa using hdat
  have d1 : dat.drop 4 = enc32 e.position.x ++ (enc32 e.position.y ++
      (enc32 e.position.z ++ (enc32 e.rotation.x ++ (enc32 e.rotation.y ++
      (enc32 e.rotation.z ++ (enc32 e.scale.x ++ (enc32 e.scale.y ++
      (enc32 e.scale.z ++ ([(if e.isVisible then 1 else 0) % 256] ++
      []))))))))) :=
    drop_chunk dat (enc32 e.entityID) _ 4 hdat (by simp [enc32])
  have d2 : dat.drop 16 = enc32 e.rotation.x ++ (enc32 e.rotation.y ++
      (enc32 e.rotation.z ++ (enc32 e.scale.x ++ (enc32 e.scale.y ++
      (enc32 e.scale.z ++ ([(if e.isVisible then 1 else 0) % 256] ++
      [])))))) :=
    drop_chunk dat (enc32 e.entityID ++ (enc32 e.position.x ++
      (enc32 e.position.y ++ enc32 e.position.z))) _ 16
      (by rw [hdat]; simp [List.append_assoc]) (by simp [enc32])
  have d3 : dat.drop 28 = enc32 e.scale.x ++ (enc32 e.scale.y ++
      (enc32 e.scale.z ++ ([(if e.isVisible then 1 else 0) % 256] ++
      []))) :=
    drop_chunk dat (enc32 e.entityID ++ (enc32 e.position.x ++
      (enc32 e.position.y ++ (enc32 e.position.z ++ (enc32 e.rotation.x ++
      (enc32 e.rotation.y ++ enc32 e.rotation.z)))))) _ 28
      (by rw [hdat]; simp [List.append_assoc]) (by simp [enc32])
  have d4 : dat.drop 40 =
      (if e.isVisible then 1 else 0) % 256 :: [] :=
    drop_chunk dat (enc32 e.entityID ++ (enc32 e.position.x ++
      (enc32 e.position.y ++ (enc32 e.position.z ++ (enc32 e.rotation.x ++
      (enc32 e.rotation.y ++ (enc32 e.rotation.z ++ (enc32 e.scale.x ++
      (enc32 e.scale.y ++ enc32 e.scale.z))))))))) _ 40
      (by rw [hdat]; simp [List.append_assoc]) (by simp [enc32])
  unfold PacketData.EntityUpdate.readFrom
  rw [Packet.readUint32_frame _ _ _ d0]
  simp only [rstep]
  rw [Packet.readVec3_frame _ e.position _ (by simpa using d1) hpx hpy hpz]
  simp only [rstep]
  rw [Packet.readVec3_frame _ e.rotation _ (by simpa using d2) hrx hry hrz]
  simp only [rstep]
  rw [Packet.readVec3_frame _ e.scale _ (by simpa using d3) hsx hsy hsz]
  simp only [rstep]
  rw [Packet.readUint8_frame _ _ _ (by simpa using d4)]
  simp only [rstep]
  rw [Nat.mod_eq_of_lt heid]
  cases hv : e.isVisible <;> (simp [hv]; rw [← hv])

theorem PacketData.EntityUpdate.roundTrip_entity (p0 : Packet) (h0 : p0.data = [])
    (e : PacketData.EntityUpdate) (hWF : e.WF) :
    (PacketData.EntityUpdate.readFrom
      ((e.writeTo p0).resetReadPosition)).1 = Except.ok e :=
  PacketData.EntityUpdate.readFrom_chunks_entity (e.writeTo p0).header
    (e.writeTo p0).data e hWF
    (by simp [PacketData.EntityUpdate.writeTo, h0, List.append_assoc])

theorem PacketData.PlayerJoin.readFrom_chunks_join (hdr : PacketHeader)
    (dat : List Nat) (j : PacketData.PlayerJoin) (hWF : j.WF)
    (hdat : dat = enc32 j.playerID ++ (encString j.playerName ++
      (enc32 j.spawnPosition.x ++ (enc32 j.spawnPosition.y ++ [])))) :
    (PacketData.PlayerJoin.readFrom ⟨hdr, dat, 0⟩).1 = Except.ok j := by
  obtain ⟨hpid, ⟨hnlen, hnbytes⟩, ⟨hsx, hsy⟩⟩ := hWF
  have d0 : (⟨hdr, dat, 0⟩ : Packet).data.drop
      (⟨hdr, dat, 0⟩ : Packet).readPos = enc32 j.playerID ++
      (encString j.playerName ++ (enc32 j.spawnPosition.x ++
      (enc32 j.spawnPosition.y ++ []))) := by
    simpa using hdat
  have d1 : dat.drop 4 = encString j.playerName ++
      (enc32 j.spawnPosition.x ++ (enc32 j.spawnPosition.y ++ [])) :=
    drop_chunk dat (enc32 j.playerID) _ 4 hdat (by simp [enc32])
  have d2 : dat.drop (4 + (2 + j.playerName.length)) =
      enc32 j.spawnPosition.x ++ (enc32 j.spawnPosition.y ++ []) :=
    drop_chunk dat (enc32 j.playerID ++ encString j.playerName) _ _
      (by rw [hdat, List.append_assoc])
      (by simp only [enc32, encString, enc16, List.length_append,
            List.length_cons, List.length_nil, List.length_map])
  unfold PacketData.PlayerJoin.readFrom
  rw [Packet.readUint32_frame _ _ _ d0]
  simp only [rstep]
  rw [Packet.readString_frame _ j.playerName _ (by simpa using d1)
    hnlen hnbytes]
  simp only [rstep]
  rw [Packet.readVec2_frame _ j.spawnPosition _ (by simpa using d2)
    hsx hsy]
  simp only [rstep]
  rw [Nat.mod_eq_of_lt hpid]

theorem PacketData.PlayerJoin.roundTrip_join (p0 : Packet) (h0 : p0.data = [])
    (j : PacketData.PlayerJoin) (hWF : j.WF) :
    (PacketData.PlayerJoin.readFrom
      ((j.writeTo p0).resetReadPosition)).1 = Except.ok j :=
  PacketData.PlayerJoin.readFrom_chunks_join (j.writeTo p0).header
    (j.writeTo p0).data j hWF
    (by simp [PacketData.PlayerJoin.writeTo, h0, List.append_assoc])

theorem PacketData.PeerIDAssignment.roundTrip_assign (p0 : Packet)
    (h0 : p0.data = []) (a : PacketData.PeerIDAssignment) (hWF : a.WF) :
    (PacketData.PeerIDAssignment.readFrom
      ((a.writeTo p0).resetReadPosition)).1 = Except.ok a := by
  have d0 : ((a.writeTo p0).resetReadPosition).data.drop
      ((a.writeTo p0).resetReadPosition).readPos =
      enc32 a.assignedPeerID ++ [] := by
    simp [PacketData.PeerIDAssignment.writeTo, Packet.resetReadPosition, h0]
  unfold PacketData.PeerIDAssignment.readFrom
  rw [Packet.readUint32_frame _ _ _ d0]
  simp only [rstep]
  rw [Nat.mod_eq_of_lt hWF]

/-! ## Claim theorems: wire codec -/

@[simp]
theorem Packet.mkEmpty_data : Packet.mkEmpty.data = [] := rfl

@[simp]
theorem Packet.mkEmpty_readPos : Packet.mkEmpty.readPos = 0 := rfl

@[simp]
theorem Packet.mkTyped_data (t now : Nat) : (Packet.mkTyped t now).data = [] :=
  rfl

@[simp]
theorem Packet.mkTyped_readPos (t now : Nat) :
    (Packet.mkTyped t now).readPos = 0 := rfl

@[simp]
theorem Packet.resetReadPosition_data (p : Packet) :
    p.resetReadPosition.data = p.data := rfl

@[simp]
theorem Packet.resetReadPosition_readPos (p : Packet) :
    p.resetReadPosition.readPos = 0 := rfl

/-- C1: for every payload variant (`PlayerMove`, `ChatMessage`,
`EntityUpdate`, `PlayerJoin`, `PeerIDAssignment`) with fields in the ranges
guaranteed by their C++ types (strings of length at most 65535), writing
the variant into a fresh `Packet` with `WriteTo`, calling
`ResetReadPosition`, and reading back with `ReadFrom` recovers the variant
field-for-field (floats compared as their 32-bit patterns, which is what
the codec transports); this covers zero-length and maximum-length strings
and arbitrary vector components. -/
theorem c1_payload_roundTrip
    (p0 : Packet) (h0 : p0.data = [])
    (m : PacketData.PlayerMove) (hm : m.WF)
    (c : PacketData.ChatMessage) (hc : c.WF)
    (e : PacketData.EntityUpdate) (he : e.WF)
    (j : PacketData.PlayerJoin) (hj : j.WF)
    (a : PacketData.PeerIDAssignment) (ha : a.WF) :
    (PacketData.PlayerMove.readFrom
      ((m.writeTo p0).resetReadPosition)).1 = Except.ok m ∧
    (PacketData.ChatMessage.readFrom
      ((c.writeTo p0).resetReadPosition)).1 = Except.ok c ∧
    (PacketData.EntityUpdate.readFrom
      ((e.writeTo p0).resetReadPosition)).1 = Except.ok e ∧
    (PacketData.PlayerJoin.readFrom
      ((j.writeTo p0).resetReadPosition)).1 = Except.ok j ∧
    (PacketData.PeerIDAssignment.readFrom
      ((a.writeTo p0).resetReadPosition)).1 = Except.ok a :=
  ⟨PacketData.PlayerMove.roundTrip_move p0 h0 m hm,
   PacketData.ChatMessage.roundTrip_chat p0 h0 c hc,
   PacketData.EntityUpdate.roundTrip_entity p0 h0 e he,
   PacketData.PlayerJoin.roundTrip_join p0 h0 j hj,
   PacketData.PeerIDAssignment.roundTrip_assign p0 h0 a ha⟩

/-- Concrete instantiation of the C1 round trip. -/
theorem c1_payload_roundTrip_witness :
    (PacketData.PlayerMove.readFrom
      (((⟨5, ⟨1065353216, 3212836864⟩, ⟨0, 4294967295⟩,
        1078530011⟩ : PacketData.PlayerMove).writeTo
        Packet.mkEmpty).resetReadPosition)).1 =
      Except.ok ⟨5, ⟨1065353216, 3212836864⟩, ⟨0, 4294967295⟩,
        1078530011⟩ ∧
    (PacketData.ChatMessage.readFrom
      (((⟨1, [72, 105], []⟩ : PacketData.ChatMessage).writeTo
        Packet.mkEmpty).resetReadPosition)).1 =
      Except.ok ⟨1, [72, 105], []⟩ ∧
    (PacketData.EntityUpdate.readFrom
      (((⟨2, ⟨0, 1, 2⟩, ⟨3, 4, 5⟩, ⟨6, 7, 8⟩, true⟩ :
        PacketData.EntityUpdate).writeTo
        Packet.mkEmpty).resetReadPosition)).1 =
      Except.ok ⟨2, ⟨0, 1, 2⟩, ⟨3, 4, 5⟩, ⟨6, 7, 8⟩, true⟩ ∧
    (PacketData.PlayerJoin.readFrom
      (((⟨3, [97], ⟨9, 10⟩⟩ : PacketData.PlayerJoin).writeTo
        Packet.mkEmpty).resetReadPosition)).1 =
      Except.ok ⟨3, [97], ⟨9, 10⟩⟩ ∧
    (PacketData.PeerIDAssignment.readFrom
      (((⟨42⟩ : PacketData.PeerIDAssignment).writeTo
        Packet.mkEmpty).resetReadPosition)).1 = Except.ok ⟨42⟩ :=
  c1_payload_roundTrip Packet.mkEmpty rfl
    ⟨5, ⟨1065353216, 3212836864⟩, ⟨0, 4294967295⟩, 1078530011⟩ (by decide)
    ⟨1, [72, 105], []⟩ (by decide)
    ⟨2, ⟨0, 1, 2⟩, ⟨3, 4, 5⟩, ⟨6, 7, 8⟩, true⟩ (by decide)
    ⟨3, [97], ⟨9, 10⟩⟩ (by decide)
    ⟨42⟩ (by decide)

/-- C2: on a `Packet` whose cursor is at or past the end of the payload
buffer, `ReadUint8` throws the buffer-overflow error and leaves the packet
(including the cursor) unchanged, and every wider read — all composed of
repeated `ReadUint8` calls — throws the same error with the packet equally
unchanged; since packets are values, no other (fresh) packet is affected. -/
theorem c2_read_at_end_fails (p : Packet) (h : p.data.length ≤ p.readPos) :
    p.readUint8 = (Except.error overflowMsg, p) ∧
    p.readUint16 = (Except.error overflowMsg, p) ∧
    p.readUint32 = (Except.error overflowMsg, p) ∧
    p.readFloat = (Except.error overflowMsg, p) ∧
    p.readString = (Except.error overflowMsg, p) ∧
    p.readVec2 = (Except.error overflowMsg, p) ∧
    p.readVec3 = (Except.error overflowMsg, p) := by
  have h8 := Packet.readUint8_err p h
  have h16 : p.readUint16 = (Except.error overflowMsg, p) := by
    unfold Packet.readUint16
    rw [h8]
    rfl
  have h32 : p.readUint32 = (Except.error overflowMsg, p) := by
    unfold Packet.readUint32
    rw [h8]
    rfl
  have hf : p.readFloat = (Except.error overflowMsg, p) := h32
  have hs : p.readString = (Except.error overflowMsg, p) := by
    unfold Packet.readString
    rw [h16]
    rfl
  have hv2 : p.readVec2 = (Except.error overflowMsg, p) := by
    unfold Packet.readVec2
    rw [hf]
    rfl
  have hv3 : p.readVec3 = (Except.error overflowMsg, p) := by
    unfold Packet.readVec3
    rw [hf]
    rfl
  exact ⟨h8, h16, h32, hf, hs, hv2, hv3⟩

/-- Concrete instantiation of C2 on a fresh empty packet. -/
theorem c2_read_at_end_fails_witness :
    Packet.mkEmpty.readUint8 = (Except.error overflowMsg, Packet.mkEmpty) ∧
    Packet.mkEmpty.readUint16 = (Except.error overflowMsg, Packet.mkEmpty) ∧
    Packet.mkEmpty.readUint32 = (Except.error overflowMsg, Packet.mkEmpty) ∧
    Packet.mkEmpty.readFloat = (Except.error overflowMsg, Packet.mkEmpty) ∧
    Packet.mkEmpty.readString = (Except.error overflowMsg, Packet.mkEmpty) ∧
    Packet.mkEmpty.readVec2 = (Except.error overflowMsg, Packet.mkEmpty) ∧
    Packet.mkEmpty.readVec3 = (Except.error overflowMsg, Packet.mkEmpty) :=
  c2_read_at_end_fails Packet.mkEmpty (by decide)

/-- C10: multi-byte reads are not atomic on failure: with exactly `k`
bytes left before the end of the buffer, `ReadUint16` (at `k = 1`) and
`ReadUint32` (at `k ∈ {1,2,3}`) throw the overflow error only after
consuming the `k` remaining bytes, leaving the cursor at the buffer end
rather than at its pre-read position. -/
theorem c10_partial_reads_consume (p : Packet) (k : Nat)
    (hk : p.readPos + k = p.data.length) :
    (k = 1 → p.readUint16 =
      (Except.error overflowMsg, { p with readPos := p.data.length })) ∧
    (1 ≤ k → k ≤ 3 → p.readUint32 =
      (Except.error overflowMsg, { p with readPos := p.data.length })) := by
  constructor
  · intro hk1
    subst hk1
    obtain ⟨b0, r0⟩ := Packet.readUint8_ok_state p (by omega)
    unfold Packet.readUint16
    rw [r0]
    simp only [rstep]
    rw [Packet.readUint8_err _ (by simp; omega)]
    simp only [rstep, Prod.mk.injEq, Packet.mk.injEq, true_and, and_true]
    omega
  · intro hk1 hk3
    interval_cases k
    · obtain ⟨b0, r0⟩ := Packet.readUint8_ok_state p (by omega)
      unfold Packet.readUint32
      rw [r0]
      simp only [rstep]
      rw [Packet.readUint8_err _ (by simp; omega)]
      simp only [rstep, Prod.mk.injEq, Packet.mk.injEq, true_and, and_true]
      omega
    · obtain ⟨b0, r0⟩ := Packet.readUint8_ok_state p (by omega)
      unfold Packet.readUint32
      rw [r0]
      simp only [rstep]
      obtain ⟨b1, r1⟩ := Packet.readUint8_ok_state
        { p with readPos := p.readPos + 1 } (by simp; omega)
      rw [r1]
      simp only [rstep]
      rw [Packet.readUint8_err _ (by simp; omega)]
      simp only [rstep, Prod.mk.injEq, Packet.mk.injEq, true_and, and_true]
      omega
    · obtain ⟨b0, r0⟩ := Packet.readUint8_ok_state p (by omega)
      unfold Packet.readUint32
      rw [r0]
      simp only [rstep]
      obtain ⟨b1, r1⟩ := Packet.readUint8_ok_state
        { p with readPos := p.readPos + 1 } (by simp; omega)
      rw [r1]
      simp only [rstep]
      obtain ⟨b2, r2⟩ := Packet.readUint8_ok_state
        { p with readPos := p.readPos + 2 } (by simp; omega)
      rw [r2]
      simp only [rstep]
      rw [Packet.readUint8_err _ (by simp; omega)]
      simp only [rstep, Prod.mk.injEq, Packet.mk.injEq, true_and, and_true]
      omega

/-- Concrete instantiation of C10: a 3-byte packet, cursor at 0. -/
theorem c10_partial_reads_consume_witness :
    ((3 : Nat) = 1 →
      (⟨PacketHeader.default, [10, 20, 30], 0⟩ : Packet).readUint16 =
        (Except.error overflowMsg,
          ⟨PacketHeader.default, [10, 20, 30], 3⟩)) ∧
    (1 ≤ (3 : Nat) → (3 : Nat) ≤ 3 →
      (⟨PacketHeader.default, [10, 20, 30], 0⟩ : Packet).readUint32 =
        (Except.error overflowMsg,
          ⟨PacketHeader.default, [10, 20, 30], 3⟩)) :=
  c10_partial_reads_consume ⟨PacketHeader.default, [10, 20, 30], 0⟩ 3
    (by decide)

/-- C9 evaluation core: `WriteString` then `ReadString` on a fresh packet
always succeeds and returns the first `length % 2 ^ 16` written bytes. -/
theorem Packet.writeString_readString_eval (s : List Nat) :
    (((Packet.mkEmpty.writeString s).resetReadPosition).readString).1 =
      Except.ok ((s.map (fun c => c % 256)).take (s.length % 2 ^ 16)) := by
  have h16 : ((Packet.mkEmpty.writeString s).resetReadPosition).data.drop
      ((Packet.mkEmpty.writeString s).resetReadPosition).readPos =
      enc16 s.length ++ s.map (fun c => c % 256) := by
    simp [Packet.resetReadPosition, encString]
  have hbd : ({ (Packet.mkEmpty.writeString s).resetReadPosition with
      readPos := ((Packet.mkEmpty.writeString s).resetReadPosition).readPos
        + 2 } : Packet).readPos + s.length % 2 ^ 16 ≤
      ({ (Packet.mkEmpty.writeString s).resetReadPosition with
      readPos := ((Packet.mkEmpty.writeString s).resetReadPosition).readPos
        + 2 } : Packet).data.length := by
    simp only [Packet.readPos_withReadPos, Packet.data_withReadPos,
      Packet.resetReadPosition_data, Packet.resetReadPosition_readPos,
      Packet.writeString_data, Packet.mkEmpty_data, List.nil_append,
      encString, enc16, List.length_append, List.length_cons,
      List.length_nil, List.length_map]
    omega
  unfold Packet.readString
  rw [Packet.readUint16_frame _ s.length _ h16]
  simp only [rstep]
  rw [Packet.readBytes_of_le (s.length % 2 ^ 16) _ hbd]
  simp only [Packet.data_withReadPos, Packet.readPos_withReadPos]
  simp [Packet.resetReadPosition, encString, enc16]

/-- C9: `WriteString` writes the string length truncated to 16 bits as the
length prefix (reading the prefix back yields `length % 2 ^ 16`) but then
appends every byte of the string (payload grows by `2 + length`); for a
string of length at least 65536 the prefix disagrees with the number of
bytes appended, and `WriteString` followed by `ResetReadPosition` and
`ReadString` returns the original string if and only if the length is at
most 65535. -/
theorem c9_writeString_truncates (s : List Nat)
    (hbytes : ∀ b ∈ s, b < 256) :
    (Packet.mkEmpty.writeString s).data.length = 2 + s.length ∧
    (((Packet.mkEmpty.writeString s).resetReadPosition).readUint16).1 =
      Except.ok (s.length % 2 ^ 16) ∧
    (2 ^ 16 ≤ s.length → s.length % 2 ^ 16 ≠ s.length) ∧
    ((((Packet.mkEmpty.writeString s).resetReadPosition).readString).1 =
        Except.ok s ↔ s.length ≤ 65535) := by
  have hmap : s.map (fun c => c % 256) = s := by
    conv_rhs => rw [← List.map_id s]
    exact List.map_congr_left fun b hb => Nat.mod_eq_of_lt (hbytes b hb)
  have h16 : ((Packet.mkEmpty.writeString s).resetReadPosition).data.drop
      ((Packet.mkEmpty.writeString s).resetReadPosition).readPos =
      enc16 s.length ++ s.map (fun c => c % 256) := by
    simp [Packet.resetReadPosition, encString]
  refine ⟨?_, ?_, ?_, ?_⟩
  · simp only [Packet.writeString_data, Packet.mkEmpty_data,
      List.nil_append, encString, enc16, List.length_append,
      List.length_cons, List.length_nil, List.length_map]
  · rw [Packet.readUint16_frame _ s.length _ h16]
  · intro hge
    omega
  · rw [Packet.writeString_readString_eval s, hmap]
    constructor
    · intro hok
      have htake : s.take (s.length % 2 ^ 16) = s := by
        simpa using hok
      have hlen := congrArg List.length htake
      simp only [List.length_take] at hlen
      omega
    · intro hle
      have hn : s.length % 2 ^ 16 = s.length := Nat.mod_eq_of_lt (by omega)
      rw [hn, List.take_length]

/-- Concrete instantiation of C9 at the two-byte string `[7, 8]`. -/
theorem c9_writeString_truncates_witness :
    (Packet.mkEmpty.writeString [7, 8]).data.length = 2 + 2 ∧
    (((Packet.mkEmpty.writeString [7, 8]).resetReadPosition).readUint16).1 =
      Except.ok (2 % 2 ^ 16) ∧
    (2 ^ 16 ≤ ([7, 8] : List Nat).length →
      ([7, 8] : List Nat).length % 2 ^ 16 ≠ ([7, 8] : List Nat).length) ∧
    ((((Packet.mkEmpty.writeString [7, 8]).resetReadPosition).readString).1 =
        Except.ok [7, 8] ↔ ([7, 8] : List Nat).length ≤ 65535) := by
  have h := c9_writeString_truncates [7, 8] (by decide)
  simpa using h

/-! ## Claim theorems: datagram layout and header invariant -/

/-- C3 counterexample: the transport header is `sizeof(PacketHeader) = 12`
bytes (1 type byte, 3 alignment padding bytes, two 4-byte fields), not 9:
on a fresh packet with empty payload, `GetTotalSize()` is 12, not
`9 + 0`, and the serialized header block is 12 bytes long. -/
theorem c3_nine_byte_header_refuted :
    Packet.mkEmpty.getTotalSize = 12 ∧
    ¬ Packet.mkEmpty.getTotalSize = 9 + Packet.mkEmpty.data.length ∧
    (headerBytes PacketHeader.default).length = 12 ∧
    ¬ (headerBytes PacketHeader.default).length = 9 := by
  decide

/-- C3 (amended): the serialized transport datagram begins with the
12-byte `memcpy` image of `PacketHeader` — type byte at offset 0, three
padding bytes, `timestamp` little-endian at offset 4, `payloadSize`
little-endian at offset 8 — immediately followed by the payload bytes,
and `TotalSize()` equals 12 (the padded header size) plus the payload
length. -/
theorem c3_datagram_layout (p : Packet)
    (hts : p.header.timestamp < 2 ^ 32) (hds : p.header.dataSize < 2 ^ 32) :
    p.rawData.length = p.getTotalSize ∧
    p.getTotalSize = 12 + p.data.length ∧
    p.rawData.getD 0 0 = p.header.type % 256 ∧
    de32 p.rawData 4 = p.header.timestamp ∧
    de32 p.rawData 8 = p.header.dataSize ∧
    p.rawData.drop 12 = p.data := by
  refine ⟨?_, ?_, ?_, ?_, ?_, ?_⟩
  · simp [Packet.rawData, headerBytes, enc32, Packet.getTotalSize,
      headerSize]
    omega
  · rfl
  · simp [Packet.rawData, headerBytes]
  · simp only [Packet.rawData, headerBytes, enc32, de32, List.cons_append,
      List.nil_append, List.getD_cons_succ, List.getD_cons_zero]
    omega
  · simp only [Packet.rawData, headerBytes, enc32, de32, List.cons_append,
      List.nil_append, List.getD_cons_succ, List.getD_cons_zero]
    omega
  · simp [Packet.rawData, headerBytes, enc32]

/-- Concrete instantiation of the amended C3 layout on a fresh packet. -/
theorem c3_datagram_layout_witness :
    Packet.mkEmpty.rawData.length = Packet.mkEmpty.getTotalSize ∧
    Packet.mkEmpty.getTotalSize = 12 + Packet.mkEmpty.data.length ∧
    Packet.mkEmpty.rawData.getD 0 0 = Packet.mkEmpty.header.type % 256 ∧
    de32 Packet.mkEmpty.rawData 4 = Packet.mkEmpty.header.timestamp ∧
    de32 Packet.mkEmpty.rawData 8 = Packet.mkEmpty.header.dataSize ∧
    Packet.mkEmpty.rawData.drop 12 = Packet.mkEmpty.data :=
  c3_datagram_layout Packet.mkEmpty (by decide) (by decide)

/-- The C4 invariant: the header's `dataSize` field equals the payload
buffer length. -/
def Packet.sizeInv (p : Packet) : Prop :=
  p.header.dataSize = p.data.length

instance (p : Packet) : Decidable p.sizeInv := by
  unfold Packet.sizeInv; infer_instance

/-- C4 counterexample: `FromENetPacket` copies the embedded `dataSize`
field without validating it against the actual byte count: decoding a
12-byte datagram whose `dataSize` field says 5 yields a packet with
`dataSize = 5` but an empty payload buffer, violating the invariant. -/
theorem c4_decoded_invariant_refuted :
    Packet.fromENetPacket [2, 0, 0, 0, 0, 0, 0, 0, 5, 0, 0, 0] =
      Except.ok ⟨⟨2, 0, 5⟩, [], 0⟩ ∧
    ¬ (⟨⟨2, 0, 5⟩, [], 0⟩ : Packet).sizeInv :=
  ⟨rfl, by decide⟩

theorem Packet.foldl_writeUint8_sizeInv (s : List Nat) :
    ∀ q : Packet, q.sizeInv →
      (s.foldl (fun q c => q.writeUint8 c) q).sizeInv := by
  induction s with
  | nil => intro q hq; exact hq
  | cons c s ih => intro q _; exact ih (q.writeUint8 c) rfl

/-- C4 (amended): every write operation (re)establishes
`payloadSize = payload length`, and the invariant holds of freshly
constructed packets; a packet decoded by `FromENetPacket`, however,
satisfies it if and only if the datagram's embedded `payloadSize` field
equals the datagram length minus the 12-byte header — the field is copied
unvalidated, so arbitrary datagrams can violate the invariant (see the
counterexample), while datagrams produced from a packet already satisfying
it decode back to a packet satisfying it. -/
theorem c4_payloadSize_invariant (p : Packet) (v : Nat) (s : List Nat)
    (v2 : Vec2) (v3 : Vec3) (t now : Nat) (raw : List Nat) :
    (p.writeUint8 v).sizeInv ∧
    (p.writeUint16 v).sizeInv ∧
    (p.writeUint32 v).sizeInv ∧
    (p.writeFloat v).sizeInv ∧
    (p.writeString s).sizeInv ∧
    (p.writeVec2 v2).sizeInv ∧
    (p.writeVec3 v3).sizeInv ∧
    Packet.mkEmpty.sizeInv ∧
    (Packet.mkTyped t now).sizeInv ∧
    (∀ q, Packet.fromENetPacket raw = Except.ok q →
      (q.sizeInv ↔ de32 raw 8 = raw.length - headerSize)) := by
  refine ⟨rfl, rfl, rfl, rfl,
    Packet.foldl_writeUint8_sizeInv s (p.writeUint16 s.length) rfl,
    rfl, rfl, rfl, rfl, ?_⟩
  intro q hq
  unfold Packet.fromENetPacket at hq
  by_cases hlen : raw.length < headerSize
  · rw [if_pos hlen] at hq
    exact absurd hq (by simp)
  · rw [if_neg hlen] at hq
    injection hq with h
    subst h
    simp [Packet.sizeInv, List.length_drop]

/-- Concrete instantiation of the amended C4 invariant conjunction. -/
theorem c4_payloadSize_invariant_witness :
    (Packet.mkEmpty.writeUint8 7).sizeInv ∧
    (Packet.mkEmpty.writeUint16 7).sizeInv ∧
    (Packet.mkEmpty.writeUint32 7).sizeInv ∧
    (Packet.mkEmpty.writeFloat 7).sizeInv ∧
    (Packet.mkEmpty.writeString [1, 2]).sizeInv ∧
    (Packet.mkEmpty.writeVec2 ⟨1, 2⟩).sizeInv ∧
    (Packet.mkEmpty.writeVec3 ⟨1, 2, 3⟩).sizeInv ∧
    Packet.mkEmpty.sizeInv ∧
    (Packet.mkTyped 2 0).sizeInv ∧
    ((⟨⟨2, 0, 0⟩, [], 0⟩ : Packet).sizeInv ↔
      de32 [2, 0, 0, 0, 0, 0, 0, 0, 0, 0, 0, 0] 8 =
        ([2, 0, 0, 0, 0, 0, 0, 0, 0, 0, 0, 0] : List Nat).length -
          headerSize) := by
  have h := c4_payloadSize_invariant Packet.mkEmpty 7 [1, 2] ⟨1, 2⟩
    ⟨1, 2, 3⟩ 2 0 [2, 0, 0, 0, 0, 0, 0, 0, 0, 0, 0, 0]
  exact ⟨h.1, h.2.1, h.2.2.1, h.2.2.2.1, h.2.2.2.2.1, h.2.2.2.2.2.1,
    h.2.2.2.2.2.2.1, h.2.2.2.2.2.2.2.1, h.2.2.2.2.2.2.2.2.1,
    h.2.2.2.2.2.2.2.2.2 ⟨⟨2, 0, 0⟩, [], 0⟩ rfl⟩

/-! ## Claim theorems: peer table and session protocol -/

/-- A sample client-side manager state: initialized, client role, host
bound, connected to the server stored as peer 0. -/
def sampleClientState : NMState :=
  { NMState.init with
    initialized := true, isClient := true, host := true,
    serverPeer := some 1, serverPeerConnState := true,
    connectedPeers := [⟨0, some 1, "127.0.0.1", 7777, 0, 0, true⟩] }

/-- C5 counterexample: the built-in `PEER_ID_ASSIGNMENT` handler stores
the assigned id and queues `SERVER_CONNECTED`, but its send list is empty
— it does not send a `PlayerJoin` (or any) packet back to the server (the
example application sends `PlayerJoin` right after `ConnectToServer`
returns, not from this handler). -/
theorem c5_playerJoin_send_refuted :
    handlePeerIDAssignment sampleClientState
      (createPeerIDAssignmentPacket 7 0) =
      Except.ok ({ sampleClientState with
        localPeerID := 7,
        eventQueue := [⟨NetworkEventType.SERVER_CONNECTED, 7,
          "Connected with assigned peer ID 7"⟩] }, []) := by
  rfl

/-- C5 (amended): on a client, the built-in `PEER_ID_ASSIGNMENT` handler
stores the assigned id as the local identity and (only then, in the same
step) queues the `ServerConnected` event carrying the assigned id; the
handler sends no packet back (the `PlayerJoin` is the application's
responsibility, in response to the event); and the accepted branch of the
blocking transport connect queues no event at all, so `ServerConnected` is
never raised at transport-level connect completion. -/
theorem c5_peer_id_assignment (s : NMState) (assigned now : Nat)
    (hc : s.isClient = true) (hid : assigned < 2 ^ 32)
    (address : String) (port timeoutMs handle : Nat) :
    handlePeerIDAssignment s (createPeerIDAssignmentPacket assigned now) =
      Except.ok ({ s with
        localPeerID := assigned,
        eventQueue := s.eventQueue ++
          [⟨NetworkEventType.SERVER_CONNECTED, assigned,
            "Connected with assigned peer ID " ++ toString assigned⟩] },
        ([] : List Packet)) ∧
    (connectToServerBlocking s address port timeoutMs
      ConnectOutcome.accepted handle).2.eventQueue = s.eventQueue ∧
    (connectToServerBlocking s address port timeoutMs
      ConnectOutcome.accepted handle).1 = true := by
  refine ⟨?_, rfl, rfl⟩
  have hread := Packet.readUint32_frame
    (createPeerIDAssignmentPacket assigned now) assigned []
    (by simp [createPeerIDAssignmentPacket])
  unfold handlePeerIDAssignment
  rw [if_pos (by simp [hc]), hread, Nat.mod_eq_of_lt hid]
  rfl

/-- Concrete instantiation of the amended C5 on the sample client state. -/
theorem c5_peer_id_assignment_witness :
    handlePeerIDAssignment sampleClientState
      (createPeerIDAssignmentPacket 9 0) =
      Except.ok ({ sampleClientState with
        localPeerID := 9,
        eventQueue := sampleClientState.eventQueue ++
          [⟨NetworkEventType.SERVER_CONNECTED, 9,
            "Connected with assigned peer ID " ++ toString 9⟩] },
        ([] : List Packet)) ∧
    (connectToServerBlocking sampleClientState "localhost" 7777 5000
      ConnectOutcome.accepted 1).2.eventQueue =
      sampleClientState.eventQueue ∧
    (connectToServerBlocking sampleClientState "localhost" 7777 5000
      ConnectOutcome.accepted 1).1 = true :=
  c5_peer_id_assignment sampleClientState 9 0 (by decide) (by decide)
    "localhost" 7777 5000 1

/-- C8: starting from the constructor state (`m_NextPeerID = 1`), any
interleaving of `AddPeer` and `RemovePeer` calls assigns the ids
`1, 2, …, n` to the successive `AddPeer` calls (the n-th add gets id n,
counted over all adds since construction); the assigned ids are therefore
pairwise distinct — an id is never reassigned even after its peer is
removed — and the counter ends at `1 + (number of adds)`, never
decremented or recycled by `RemovePeer`. -/
theorem c8_sequential_peer_ids (ops : List PeerOp) :
    (runPeerOps NMState.init ops).2 = List.range' 1 (countAdds ops) ∧
    (runPeerOps NMState.init ops).2.Nodup ∧
    (runPeerOps NMState.init ops).1.nextPeerID = 1 + countAdds ops := by
  have key : ∀ (ops : List PeerOp) (s : NMState),
      (runPeerOps s ops).2 = List.range' s.nextPeerID (countAdds ops) ∧
      (runPeerOps s ops).1.nextPeerID = s.nextPeerID + countAdds ops := by
    intro ops
    induction ops with
    | nil => intro s; simp [runPeerOps, countAdds]
    | cons op ops ih =>
      intro s
      cases op with
      | add h a pt now =>
        obtain ⟨ih1, ih2⟩ := ih (addPeer s h a pt now).1
        have hca : countAdds (PeerOp.add h a pt now :: ops) =
            countAdds ops + 1 := by
          simp [countAdds, List.countP_cons]
        have hnext : ((addPeer s h a pt now).1).nextPeerID =
            s.nextPeerID + 1 := rfl
        constructor
        · show s.nextPeerID ::
            (runPeerOps (addPeer s h a pt now).1 ops).2 = _
          rw [ih1, hnext, hca, List.range'_succ]
        · show (runPeerOps (addPeer s h a pt now).1 ops).1.nextPeerID = _
          rw [ih2, hnext, hca]
          omega
      | remove h =>
        obtain ⟨ih1, ih2⟩ := ih (removePeer s h)
        have hcr : countAdds (PeerOp.remove h :: ops) = countAdds ops := by
          simp [countAdds, List.countP_cons]
        have hnext : (removePeer s h).nextPeerID = s.nextPeerID := rfl
        constructor
        · show (runPeerOps (removePeer s h) ops).2 = _
          rw [ih1, hnext, hcr]
        · show (runPeerOps (removePeer s h) ops).1.nextPeerID = _
          rw [ih2, hnext, hcr]
  obtain ⟨h1, h2⟩ := key ops NMState.init
  refine ⟨h1, ?_, ?_⟩
  · rw [h1]
    exact List.nodup_range' _ _
  · exact h2

/-- C6: `ConnectToServer` is asynchronous: in a valid state it records the
connection request, raises `pendingConnection` and returns `true`
immediately — no transport work, role change or event is performed on this
path; it returns `false` with the already-running error when already
server or client, and `false` with the already-connecting error when a
connection attempt is outstanding; the eventual outcome is reported only
via events: the call itself never touches the event queue, and the
network-thread blocking connect queues `CONNECTION_FAILED` on timeout
(the `ServerConnected` event is queued later by the `PEER_ID_ASSIGNMENT`
handler, never by this call). -/
theorem c6_connectToServer_async (s : NMState) (address : String)
    (port timeoutMs : Nat) :
    (s.initialized = true → s.isServer = false → s.isClient = false →
      s.pendingConnection = false →
      connectToServer s address port timeoutMs =
        (true, { s with
          connAddress := address, connPort := port,
          connTimeoutMs := timeoutMs, pendingConnection := true })) ∧
    (s.initialized = true → (s.isServer = true ∨ s.isClient = true) →
      connectToServer s address port timeoutMs =
        (false, s.setError "Already running as server or client")) ∧
    (s.initialized = true → s.isServer = false → s.isClient = false →
      s.pendingConnection = true →
      connectToServer s address port timeoutMs =
        (false, s.setError "Connection already in progress")) ∧
    (connectToServer s address port timeoutMs).2.eventQueue =
      s.eventQueue ∧
    (connectToServer s address port timeoutMs).2.host = s.host ∧
    (connectToServer s address port timeoutMs).2.isClient = s.isClient ∧
    (∀ outcome : ConnectOutcome, ∀ handle : Nat,
      (connectToServerBlocking s address port timeoutMs outcome
        handle).2.eventQueue =
        (if outcome = ConnectOutcome.timeout then
          s.eventQueue ++ [⟨NetworkEventType.CONNECTION_FAILED, 0,
            "Connection timed out"⟩]
        else s.eventQueue)) := by
  refine ⟨?_, ?_, ?_, ?_, ?_, ?_, ?_⟩
  · intro h1 h2 h3 h4
    simp [connectToServer, h1, h2, h3, h4]
  · intro h1 h2
    rcases h2 with h2 | h2 <;> simp [connectToServer, h1, h2]
  · intro h1 h2 h3 h4
    simp [connectToServer, h1, h2, h3, h4]
  · unfold connectToServer
    split_ifs <;> simp [NMState.setError]
  · unfold connectToServer
    split_ifs <;> simp [NMState.setError]
  · unfold connectToServer
    split_ifs <;> simp [NMState.setError]
  · intro outcome handle
    cases outcome <;>
      simp [connectToServerBlocking, NMState.setError, NMState.queueEvent]

/-- Concrete instantiation of C6 on an initialized idle state and on the
sample client state (already-running case). -/
theorem c6_connectToServer_async_witness :
    connectToServer { NMState.init with initialized := true }
      "localhost" 7777 5000 =
      (true, { { NMState.init with initialized := true } with
        connAddress := "localhost", connPort := 7777,
        connTimeoutMs := 5000, pendingConnection := true }) ∧
    connectToServer sampleClientState "localhost" 7777 5000 =
      (false,
        sampleClientState.setError "Already running as server or client") ∧
    connectToServer { NMState.init with
        initialized := true, pendingConnection := true }
      "localhost" 7777 5000 =
      (false, ({ NMState.init with
        initialized := true,
        pendingConnection := true } : NMState).setError
          "Connection already in progress") := by
  refine ⟨?_, ?_, ?_⟩
  · exact (c6_connectToServer_async { NMState.init with
      initialized := true } "localhost" 7777 5000).1 rfl rfl rfl rfl
  · exact (c6_connectToServer_async sampleClientState
      "localhost" 7777 5000).2.1 rfl (Or.inr rfl)
  · exact (c6_connectToServer_async { NMState.init with
      initialized := true, pendingConnection := true }
      "localhost" 7777 5000).2.2.1 rfl rfl rfl rfl

/-- C7: `SendPacket` — as client the `peerID` argument is ignored (the
result is identical for any two ids) and a successful send targets
exactly the bound server peer handle; as server a successful send targets
the handle of the first peer-table entry whose id equals `peerID`, which
is marked connected; with no host bound it returns `false` and sets the
"No active host" last-error, and with the target peer absent the send
returns `false` and sets the "Failed to send packet" last-error; in every
case the event queue is untouched (the failure is silent) and nothing is
thrown. -/
theorem c7_sendPacket_targets (s : NMState) (packet : Packet)
    (peerID id2 : Nat) (ok : Bool) :
    (s.isClient = true →
      sendPacket s packet peerID ok = sendPacket s packet id2 ok) ∧
    (s.isClient = true → s.host = true →
      ∀ h, s.serverPeer = some h → s.serverPeerConnState = true →
        (sendPacket s packet peerID true).2.2 = some h) ∧
    (s.isClient = false → s.isServer = true →
      ∀ h, (sendPacket s packet peerID ok).2.2 = some h →
        ∃ peer, findPeerByID s.connectedPeers peerID = some peer ∧
          peer.id = peerID ∧ peer.enetPeer = some h ∧
          peer.isConnected = true) ∧
    (s.host = false →
      sendPacket s packet peerID ok =
        (false, s.setError "No active host", none)) ∧
    (s.host = true → s.isClient = false → s.isServer = true →
      findPeerByID s.connectedPeers peerID = none →
      sendPacket s packet peerID ok =
        (false, s.setError "Failed to send packet", none)) ∧
    (s.host = true → s.isClient = true → s.serverPeerConnState = false →
      sendPacket s packet peerID ok =
        (false, s.setError "Failed to send packet", none)) ∧
    (s.host = true → s.isClient = false → s.isServer = true →
      ∀ peer, findPeerByID s.connectedPeers peerID = some peer →
        peer.isConnected = false →
        sendPacket s packet peerID ok =
          (false, s.setError "Failed to send packet", none)) ∧
    (sendPacket s packet peerID ok).2.1.eventQueue = s.eventQueue := by
  refine ⟨?_, ?_, ?_, ?_, ?_, ?_, ?_, ?_⟩
  · intro hc
    unfold sendPacket
    simp [hc]
  · intro hc hh h hsp hconn
    unfold sendPacket
    simp [hc, hh, hsp, hconn]
  · intro hc hs h hsome
    unfold sendPacket at hsome
    by_cases hh : s.host = false
    · rw [if_pos hh] at hsome
      simp at hsome
    · rw [if_neg hh] at hsome
      simp only [hc, hs, Bool.false_eq_true, if_false, if_true] at hsome
      rcases hfind : findPeerByID s.connectedPeers peerID with _ | peer
      · rw [hfind] at hsome
        simp at hsome
      · rw [hfind] at hsome
        dsimp only at hsome
        rcases hpeer : peer.enetPeer with _ | ph
        · rw [hpeer] at hsome
          simp at hsome
        · rw [hpeer] at hsome
          dsimp only at hsome
          rcases hpc : peer.isConnected with _ | _
          · rw [hpc] at hsome
            simp at hsome
          · rw [hpc] at hsome
            cases ok
            · simp at hsome
            · simp only [if_true, if_pos rfl] at hsome
              have hph : ph = h := by simpa using hsome
              refine ⟨peer, rfl, ?_, ?_, hpc⟩
              · have := List.find?_some hfind
                simpa using this
              · rw [hpeer, hph]
  · intro hh
    unfold sendPacket
    rw [if_pos hh]
  · intro hh hc hs hfind
    unfold sendPacket
    simp [hh, hc, hs, hfind]
  · intro hh hc hdisc
    unfold sendPacket
    rcases hsp : s.serverPeer with _ | h2 <;> simp [hh, hc, hdisc, hsp]
  · intro hh hc hs peer hfind hdisc
    unfold sendPacket
    rcases hpe : peer.enetPeer with _ | ph <;>
      simp [hh, hc, hs, hfind, hdisc, hpe]
  · unfold sendPacket
    by_cases hh : s.host = false
    · rw [if_pos hh]
      rfl
    · rw [if_neg hh]
      rcases htgt : (if s.isClient = true then
          match s.serverPeer with
          | some h => if s.serverPeerConnState = true then some h else none
          | none => none
        else if s.isServer = true then
          match findPeerByID s.connectedPeers peerID with
          | some peer =>
            match peer.enetPeer with
            | some h => if peer.isConnected = true then some h else none
            | none => none
          | none => none
        else none) with _ | h
      · simp only [htgt]
        rfl
      · simp only [htgt]
        cases ok <;> rfl

/-- A sample server-side manager state with one connected peer (id 1,
handle 11). -/
def sampleServerState : NMState :=
  { NMState.init with
    initialized := true, isServer := true, host := true,
    connectedPeers := [⟨1, some 11, "10.0.0.2", 5555, 0, 0, true⟩],
    nextPeerID := 2 }

/-- Concrete instantiation of C7: the client ignores `peerID`, a hostless
manager fails with the no-active-host error, and a server send to an
absent peer id fails silently with the failed-send error. -/
theorem c7_sendPacket_targets_witness :
    sendPacket sampleClientState (createPeerIDAssignmentPacket 1 0) 1
        true =
      sendPacket sampleClientState (createPeerIDAssignmentPacket 1 0) 2
        true ∧
    sendPacket NMState.init (createPeerIDAssignmentPacket 1 0) 1 true =
      (false, NMState.init.setError "No active host", none) ∧
    sendPacket sampleServerState (createPeerIDAssignmentPacket 1 0) 5
        true =
      (false, sampleServerState.setError "Failed to send packet", none) :=
  ⟨(c7_sendPacket_targets sampleClientState
      (createPeerIDAssignmentPacket 1 0) 1 2 true).1 rfl,
   (c7_sendPacket_targets NMState.init
      (createPeerIDAssignmentPacket 1 0) 1 2 true).2.2.2.1 rfl,
   (c7_sendPacket_targets sampleServerState
      (createPeerIDAssignmentPacket 1 0) 5 2 true).2.2.2.2.1 rfl rfl rfl
      rfl⟩

end Prism

